import Mathlib

/-!
# JCB Parts Finder — verification of the specification against the source

Shallow embedding of the parts-catalog application:
* `fileParser` (header normalization, required-column validation, row extraction
  for xlsx and csv/tsv inputs),
* the application state handlers in `App` (`handleFileChange`, `handleSearch`,
  `handleAddToQuotation`, `handleRemoveFromQuotation`,
  `handleUpdateQuotationQuantity`),
* the quotation arithmetic in `QuotationSidebar` (`parseCurrency`, totals,
  discount clamping).

JavaScript numbers are embedded as exact rationals (`Rat`); machine-level
floating point is not modelled.  Dynamic spreadsheet cells are embedded as an
explicit `CellValue` sum type, and absent cells (`undefined` in JS) as
`Option`.  The third-party fuzzy-search engine (Fuse.js, loaded from a CDN) is
not part of the repository; query resolution is therefore parameterised by the
candidate list the engine returns.
-/

namespace JCB

/-- The canonical part record (`src/types.ts`): eight fields, all text. -/
structure Part where
  itemNo : String
  itemDescription : String
  itemGroup : String
  model : String
  bhlHlnFlag : String
  hsnTax : String
  saleRate : String
  mrp : String
deriving Repr, DecidableEq

/-- A part placed on the quotation: the part plus a quantity
(`QuotationPart extends Part` in `src/types.ts`). -/
structure QuotationPart where
  part : Part
  quantity : Int
deriving Repr, DecidableEq

/-- Identifiers of the eight canonical fields (the keys of `Part`). -/
inductive PartKey
  | itemNo | itemDescription | itemGroup | model
  | bhlHlnFlag | hsnTax | saleRate | mrp
deriving Repr, DecidableEq

/-- `REQUIRED_HEADERS` from the file parser: every canonical field is
required to be present as a column. -/
def REQUIRED_HEADERS : List PartKey :=
  [.itemNo, .itemDescription, .itemGroup, .model,
   .bhlHlnFlag, .hsnTax, .saleRate, .mrp]

/-- `HEADER_MAPPING` from the file parser: the fixed synonym table from
normalized raw header text to canonical field, `none` for unrecognized. -/
def HEADER_MAPPING : String → Option PartKey
  | "item no" => some .itemNo
  | "item no." => some .itemNo
  | "item description" => some .itemDescription
  | "description" => some .itemDescription
  | "item group" => some .itemGroup
  | "model" => some .model
  | "bhl/hln flag" => some .bhlHlnFlag
  | "hsn tax %" => some .hsnTax
  | "hsn tax" => some .hsnTax
  | "sale rate" => some .saleRate
  | "mrp" => some .mrp
  | _ => none

/-- JS `toLowerCase()`, embedded character-wise (the catalog headers and item
numbers are ASCII; locale-specific Unicode case mapping is not modelled). -/
def toLowerStr (s : String) : String :=
  String.mk (s.toList.map Char.toLower)

/-- JS `trim()`: drop leading and trailing whitespace. -/
def trimStr (s : String) : String :=
  String.mk
    (((s.toList.dropWhile Char.isWhitespace).reverse.dropWhile Char.isWhitespace).reverse)

/-- `normalizeHeader`: `header.toLowerCase().trim()`. -/
def normalizeHeader (header : String) : String := trimStr (toLowerStr header)

/-- A raw spreadsheet cell: strings or numbers (`sheet_to_json` output). -/
inductive CellValue
  | str (s : String)
  | num (n : Int)
deriving Repr, DecidableEq

/-- JS `String(value)` on a present cell value. -/
def cellToString : CellValue → String
  | .str s => s
  | .num n => toString n

/-- JS `String(h)` applied to a header cell that may be `undefined`. -/
def jsString : Option CellValue → String
  | some c => cellToString c
  | none => "undefined"

/-- Write one canonical field of a part record (`part[partKey] = v`). -/
def setField (p : Part) (k : PartKey) (v : String) : Part :=
  match k with
  | .itemNo => { p with itemNo := v }
  | .itemDescription => { p with itemDescription := v }
  | .itemGroup => { p with itemGroup := v }
  | .model => { p with model := v }
  | .bhlHlnFlag => { p with bhlHlnFlag := v }
  | .hsnTax => { p with hsnTax := v }
  | .saleRate => { p with saleRate := v }
  | .mrp => { p with mrp := v }

/-- The empty JS object `{}` the extractor starts from, viewed as a record
whose fields all default to the empty string. -/
def emptyPart : Part := ⟨"", "", "", "", "", "", "", ""⟩

/-- The cell read `row[index] ?? ''` coerced to text: out-of-range and empty
cells become the empty string. -/
def cellAt (row : List (Option CellValue)) (index : Nat) : String :=
  match row.get? index with
  | some (some v) => cellToString v
  | _ => ""

/-- The `headerMap.forEach((partKey, index) => ...)` walk of `processRow`,
carrying the column index. -/
def processRowGo (row : List (Option CellValue)) :
    List (Option PartKey) → Nat → Part → Part
  | [], _, part => part
  | partKey :: rest, index, part =>
      processRowGo row rest (index + 1)
        (match partKey with
         | some k => setField part k (cellAt row index)
         | none => part)

/-- `processRow` from the file parser: for each column whose header mapped to
a canonical field, copy that column's cell (`row[index] ?? ''`, coerced to
text) into the record. -/
def processRow (row : List (Option CellValue)) (headerMap : List (Option PartKey)) : Part :=
  processRowGo row headerMap 0 emptyPart

/-- The ingestion error taxonomy (the distinct `reject`/`throw` messages of
the parser and of `handleFileChange`). -/
inductive IngestError
  | unsupportedFormat
  | emptyOrHeaderOnly
  | missingColumns (cols : List PartKey)
  | malformedFile (msg : String)
  | sizeExceeded (count limit : Nat)
deriving Repr, DecidableEq

/-- The header-to-field map computed from a header row
(`json[0].map(h => HEADER_MAPPING[normalizeHeader(String(h))] || null)`). -/
def headerMapOf (headerRow : List (Option CellValue)) : List (Option PartKey) :=
  headerRow.map (fun h => HEADER_MAPPING (normalizeHeader (jsString h)))

/-- The required canonical fields with no source column
(`REQUIRED_HEADERS.filter(rh => !foundHeaders.includes(rh))`). -/
def missingOf (headerMap : List (Option PartKey)) : List PartKey :=
  REQUIRED_HEADERS.filter (fun rh => !((headerMap.filterMap id).contains rh))

/-- `parseExcel` from the file parser, after the spreadsheet library has
turned the first sheet into a row-major grid `json` of cells: fewer than two
rows rejects with empty-or-header-only; then headers are normalized and
mapped, missing required columns reject; otherwise every row after the first
becomes one record. -/
def parseExcelRows (json : List (List (Option CellValue))) :
    Except IngestError (List Part) :=
  if json.length < 2 then
    .error .emptyOrHeaderOnly
  else
    let headerMap := headerMapOf (json.headD [])
    let missingHeaders := missingOf headerMap
    if missingHeaders.length > 0 then
      .error (.missingColumns missingHeaders)
    else
      .ok ((json.drop 1).map (fun row => processRow row headerMap))

/-- Papa-parse row-object lookup `row[rawHeader]`: the row object is keyed by
header text, later columns overwriting earlier ones with the same header. -/
def rowGet (headers : List String) (cells : List String) (h : String) :
    Option String :=
  ((headers.zip cells).filter (fun p => p.1 == h)).getLast?.map (·.2)

/-- One record from one csv/tsv data row
(`for rawHeader of headers: part[partKey] = String(row[rawHeader] ?? '')`). -/
def processCsvRow (headers : List String) (cells : List String) : Part :=
  headers.foldl
    (fun part rawHeader =>
      match HEADER_MAPPING rawHeader with
      | some partKey => setField part partKey ((rowGet headers cells rawHeader).getD "")
      | none => part)
    emptyPart

/-- `parseCsvTsv` from the file parser, after the csv library has produced
field names, data rows and its error list: any reader error rejects as a
malformed file; then field names are normalized and mapped, missing required
columns reject; otherwise every data row becomes one record. -/
def parseCsvTsvRows (fields : List String) (data : List (List String))
    (perrors : List String) : Except IngestError (List Part) :=
  if perrors.length > 0 then
    .error (.malformedFile (perrors.headD ""))
  else
    let headers := fields.map normalizeHeader
    let headerMapValues := headers.map HEADER_MAPPING
    let missingHeaders := missingOf headerMapValues
    if missingHeaders.length > 0 then
      .error (.missingColumns missingHeaders)
    else
      .ok (data.map (fun row => processCsvRow headers row))

/-! ## Quotation arithmetic (`QuotationSidebar`) -/

/-- `value.replace(/[^0-9.-]+/g, "")`: keep only digits, `.` and `-`. -/
def stripNonNumeric (value : String) : String :=
  String.mk (value.toList.filter (fun c => c.isDigit || c == '.' || c == '-'))

/-- Digits to a natural number. -/
def digitsToNat (ds : List Char) : Nat :=
  ds.foldl (fun acc c => acc * 10 + (c.toNat - 48)) 0

/-- JS `parseFloat`: skip leading whitespace, read an optional sign, integer
digits and an optional fraction, ignore everything after the longest numeric
prefix; `none` when no digit is read (NaN).  Exponent notation is not
modelled: `parseCurrency` only ever applies this to strings stripped down to
digits, `.` and `-`. -/
def jsParseFloat (s : String) : Option Rat :=
  let cs := s.toList.dropWhile (fun c => c == ' ' || c == '\t' || c == '\n' || c == '\r')
  let signAndRest : Rat × List Char :=
    match cs with
    | '-' :: rest => (-1, rest)
    | '+' :: rest => (1, rest)
    | _ => (1, cs)
  let intPart := signAndRest.2.takeWhile Char.isDigit
  let afterInt := signAndRest.2.dropWhile Char.isDigit
  let fracPart :=
    match afterInt with
    | '.' :: r => r.takeWhile Char.isDigit
    | _ => []
  if intPart.isEmpty && fracPart.isEmpty then none
  else
    some (signAndRest.1 *
      ((digitsToNat intPart : Rat) + (digitsToNat fracPart : Rat) / (10 : Rat) ^ fracPart.length))

/-- `parseCurrency` from `QuotationSidebar`: strip non-numeric characters,
`parseFloat`, and treat NaN as 0. -/
def parseCurrency (value : String) : Rat :=
  (jsParseFloat (stripNonNumeric value)).getD 0

/-- The derived quotation figures. -/
structure Totals where
  subtotal : Rat
  discountAmount : Rat
  total : Rat
deriving Repr, DecidableEq

/-- The `useMemo` derivation in `QuotationSidebar`: subtotal is the reduce of
`parseCurrency(part.mrp) * part.quantity`, the discount amount is
`subtotal * (discount / 100)`, and the total is their difference. -/
def totals (parts : List QuotationPart) (discount : Rat) : Totals :=
  let subtotal :=
    parts.foldl (fun acc part => acc + parseCurrency part.part.mrp * (part.quantity : Rat)) 0
  let discountAmount := subtotal * (discount / 100)
  ⟨subtotal, discountAmount, subtotal - discountAmount⟩

/-- The discount input handler in `QuotationSidebar`:
`Math.max(0, Math.min(100, parseFloat(e.target.value) || 0))`.  The parsed
input is embedded as `Option Rat` (`none` for NaN); `|| 0` replaces NaN by 0
before clamping. -/
def clampDiscountInput (rawValue : Option Rat) : Rat :=
  max 0 (min 100 (rawValue.getD 0))

/-! ## Application state and handlers (`App`) -/

/-- `MAX_PARTS_LIMIT` in `App`. -/
def MAX_PARTS_LIMIT : Nat := 65000

/-- The four upload-status values of `App`. -/
inductive UploadStatus
  | idle | loading | success | error
deriving Repr, DecidableEq

/-- The application state held in `App`'s `useState` hooks.  Presentation-only
flags (modal open, sidebar open) are omitted; the error shown on failure is
kept as `lastError` in place of the formatted `uploadMessage` text. -/
structure AppState where
  parts : List Part
  searchResults : Option (List Part)
  searchQuery : String
  uploadStatus : UploadStatus
  lastError : Option IngestError
  quotationParts : List QuotationPart
  discountPercentage : Rat
deriving DecidableEq

/-- `handleFileChange` in `App`, from the point where a file is selected: the
search state is cleared, the parse result is awaited, an oversized parse is
turned into a size error, success replaces the catalog and resets the
quotation and discount, and any error clears catalog, quotation and
discount. -/
def handleFileChange (s : AppState) (parseResult : Except IngestError (List Part)) :
    AppState :=
  let s0 := { s with uploadStatus := .loading, searchResults := none, searchQuery := "" }
  match parseResult with
  | .ok parsedData =>
      if parsedData.length > MAX_PARTS_LIMIT then
        { s0 with uploadStatus := .error
                  lastError := some (.sizeExceeded parsedData.length MAX_PARTS_LIMIT)
                  parts := []
                  quotationParts := []
                  discountPercentage := 0 }
      else
        { s0 with parts := parsedData
                  quotationParts := []
                  discountPercentage := 0
                  uploadStatus := .success
                  lastError := none }
  | .error e =>
      { s0 with uploadStatus := .error
                lastError := some e
                parts := []
                quotationParts := []
                discountPercentage := 0 }

/-- Whether an ingestion attempt fails: the parse rejected, or the parsed
record set exceeds the size limit. -/
def ingestFails (parseResult : Except IngestError (List Part)) : Prop :=
  match parseResult with
  | .ok parsedData => parsedData.length > MAX_PARTS_LIMIT
  | .error _ => True

/-- `handleSearch` in `App`: trim the query; an empty query clears the
results; otherwise run the fuzzy engine (`none` when no index was built,
which leaves the previous results), and if any candidate's `itemNo` equals
the trimmed query case-insensitively return just that candidate, else return
all candidates in engine order.  The Fuse.js engine is external, so it enters
as the function `fuse`. -/
def handleSearch (fuse : Option (String → List Part)) (searchQuery : String)
    (prevResults : Option (List Part)) : Option (List Part) :=
  let trimmedQuery := trimStr searchQuery
  if trimmedQuery == "" then
    none
  else
    match fuse with
    | none => prevResults
    | some engine =>
        let resultsWithScore := engine trimmedQuery
        match resultsWithScore.find?
            (fun r => toLowerStr r.itemNo == toLowerStr trimmedQuery) with
        | some exactMatch => some [exactMatch]
        | none => some resultsWithScore

/-- `handleAddToQuotation` in `App`: append `{part, quantity: 1}` unless a
line with the same `itemNo` is already present. -/
def handleAddToQuotation (qps : List QuotationPart) (partToAdd : Part) :
    List QuotationPart :=
  if qps.any (fun p => p.part.itemNo == partToAdd.itemNo) then qps
  else qps ++ [⟨partToAdd, 1⟩]

/-- `handleRemoveFromQuotation` in `App`: drop every line with this
`itemNo`. -/
def handleRemoveFromQuotation (qps : List QuotationPart) (itemNoToRemove : String) :
    List QuotationPart :=
  qps.filter (fun p => p.part.itemNo != itemNoToRemove)

/-- `handleUpdateQuotationQuantity` in `App`: clamp the new quantity at 0;
a clamped quantity of 0 removes the line, otherwise every line with this
`itemNo` gets the clamped quantity. -/
def handleUpdateQuotationQuantity (qps : List QuotationPart) (itemNoToUpdate : String)
    (newQuantity : Int) : List QuotationPart :=
  let quantity := max 0 newQuantity
  if quantity = 0 then
    handleRemoveFromQuotation qps itemNoToUpdate
  else
    qps.map (fun p => if p.part.itemNo == itemNoToUpdate then { p with quantity := quantity } else p)

/-- `handleUpdateQuotationQuantity` acting on the whole application state:
only the quotation lines are touched. -/
def updateQuantityState (s : AppState) (itemNoToUpdate : String) (newQuantity : Int) :
    AppState :=
  { s with quotationParts :=
      handleUpdateQuotationQuantity s.quotationParts itemNoToUpdate newQuantity }

/-- The discount flow from the sidebar input to `App`'s state:
`onDiscountChange` is `setDiscountPercentage`, so the clamped value is stored
unchanged. -/
def onDiscountChange (s : AppState) (rawValue : Option Rat) : AppState :=
  { s with discountPercentage := clampDiscountInput rawValue }

/-! ## Theorems -/

/-- C7: `add(part)` inserts `{part, quantity: 1}` when no line with that
`itemNo` is present, and is a no-op when one is present; adding the same
`itemNo` twice leaves exactly one line with that `itemNo`, whose quantity is
still 1, the value set by the first add. -/
theorem add_once_then_noop (qps : List QuotationPart) (part : Part) :
    (qps.any (fun p => p.part.itemNo == part.itemNo) = false →
      handleAddToQuotation qps part = qps ++ [⟨part, 1⟩] ∧
      handleAddToQuotation (handleAddToQuotation qps part) part =
        handleAddToQuotation qps part ∧
      (handleAddToQuotation (handleAddToQuotation qps part) part).filter
          (fun p => p.part.itemNo == part.itemNo) = [⟨part, 1⟩]) ∧
    (qps.any (fun p => p.part.itemNo == part.itemNo) = true →
      handleAddToQuotation qps part = qps) := by
  constructor
  · intro hfresh
    have hfirst : handleAddToQuotation qps part = qps ++ [⟨part, 1⟩] := by
      simp [handleAddToQuotation, hfresh]
    have hpresent : ((qps ++ [(⟨part, 1⟩ : QuotationPart)]).any
        (fun p => p.part.itemNo == part.itemNo)) = true := by
      simp [List.any_append]
    refine ⟨hfirst, ?_, ?_⟩
    · rw [hfirst]
      simp [handleAddToQuotation, hpresent]
    · rw [hfirst]
      simp [handleAddToQuotation, hpresent]
      intro a ha
      have := List.any_eq_false.mp hfresh a ha
      simpa using this
  · intro hpresent
    simp [handleAddToQuotation, hpresent]

/-- C7 witness: a concrete fresh add followed by a repeated add. -/
theorem add_once_then_noop_witness :
    ([] : List QuotationPart).any
        (fun p => p.part.itemNo == (emptyPart : Part).itemNo) = false ∧
    (handleAddToQuotation [] emptyPart = [] ++ [⟨emptyPart, 1⟩] ∧
      handleAddToQuotation (handleAddToQuotation [] emptyPart) emptyPart =
        handleAddToQuotation [] emptyPart ∧
      (handleAddToQuotation (handleAddToQuotation [] emptyPart) emptyPart).filter
          (fun p => p.part.itemNo == (emptyPart : Part).itemNo) = [⟨emptyPart, 1⟩]) :=
  ⟨by decide, (add_once_then_noop [] emptyPart).1 (by decide)⟩

/-- C8: when a line with the given `itemNo` is present, `setQuantity` clamps
the new quantity at 0: any `n ≤ 0` behaves exactly like `remove`, and any
`n ≥ 1` replaces the quantity of the matching line with `n` itself. -/
theorem setQuantity_clamps_and_replaces (qps : List QuotationPart)
    (itemNoToUpdate : String) (n : Int)
    (hpres : ∃ q ∈ qps, q.part.itemNo = itemNoToUpdate) :
    (n ≤ 0 →
      handleUpdateQuotationQuantity qps itemNoToUpdate n =
        handleRemoveFromQuotation qps itemNoToUpdate) ∧
    (1 ≤ n →
      handleUpdateQuotationQuantity qps itemNoToUpdate n =
        qps.map (fun p =>
          if p.part.itemNo == itemNoToUpdate then { p with quantity := n } else p) ∧
      ∃ q ∈ handleUpdateQuotationQuantity qps itemNoToUpdate n,
        q.part.itemNo = itemNoToUpdate ∧ q.quantity = n) := by
  constructor
  · intro hn
    have hmax : max 0 n = 0 := by omega
    simp [handleUpdateQuotationQuantity, hmax]
  · intro hn
    have hmax : max 0 n = n := by omega
    have hne : n ≠ 0 := by omega
    have heq : handleUpdateQuotationQuantity qps itemNoToUpdate n =
        qps.map (fun p =>
          if p.part.itemNo == itemNoToUpdate then { p with quantity := n } else p) := by
      simp [handleUpdateQuotationQuantity, hmax, hne]
    refine ⟨heq, ?_⟩
    obtain ⟨q, hq, hqitem⟩ := hpres
    refine ⟨{ q with quantity := n }, ?_, hqitem, rfl⟩
    rw [heq]
    have : (if q.part.itemNo == itemNoToUpdate then
        ({ q with quantity := n } : QuotationPart) else q) = { q with quantity := n } := by
      simp [hqitem]
    exact this ▸ List.mem_map_of_mem _ hq

/-- C8 witness: a single-line ledger updated with `-5` and with `3`. -/
theorem setQuantity_clamps_and_replaces_witness :
    (∃ q ∈ [(⟨emptyPart, 1⟩ : QuotationPart)], q.part.itemNo = "" ) ∧
    ((-5 : Int) ≤ 0 →
      handleUpdateQuotationQuantity [⟨emptyPart, 1⟩] "" (-5) =
        handleRemoveFromQuotation [⟨emptyPart, 1⟩] "") ∧
    ((1 : Int) ≤ (-5 : Int) →
      handleUpdateQuotationQuantity [⟨emptyPart, 1⟩] "" (-5) =
        [(⟨emptyPart, 1⟩ : QuotationPart)].map (fun p =>
          if p.part.itemNo == "" then { p with quantity := (-5 : Int) } else p) ∧
      ∃ q ∈ handleUpdateQuotationQuantity [⟨emptyPart, 1⟩] "" (-5),
        q.part.itemNo = "" ∧ q.quantity = (-5 : Int)) :=
  ⟨⟨⟨emptyPart, 1⟩, by decide, rfl⟩,
    setQuantity_clamps_and_replaces [⟨emptyPart, 1⟩] "" (-5)
      ⟨⟨emptyPart, 1⟩, by decide, rfl⟩⟩

/-- C10: `setQuantity` on an `itemNo` absent from the ledger, with a positive
quantity, leaves the whole application state unchanged: no line is inserted,
no line is modified, and the discount is untouched. -/
theorem setQuantity_absent_frame (s : AppState) (itemNoToUpdate : String) (n : Int)
    (hn : 1 ≤ n)
    (habs : ∀ q ∈ s.quotationParts, q.part.itemNo ≠ itemNoToUpdate) :
    updateQuantityState s itemNoToUpdate n = s := by
  have hne : ¬ (max 0 n = 0) := by omega
  have hlist : handleUpdateQuotationQuantity s.quotationParts itemNoToUpdate n =
      s.quotationParts := by
    simp only [handleUpdateQuotationQuantity, if_neg hne]
    have hid : ∀ q ∈ s.quotationParts,
        (if (q.part.itemNo == itemNoToUpdate) = true then
          ({ q with quantity := max 0 n } : QuotationPart) else q) = id q := by
      intro q hq
      simp [habs q hq]
    exact (List.map_congr_left hid).trans (List.map_id s.quotationParts)
  simp [updateQuantityState, hlist]

/-- C10 witness: quantity 3 for an absent item number on a one-line ledger. -/
theorem setQuantity_absent_frame_witness :
    (1 : Int) ≤ 3 ∧
    updateQuantityState
      ⟨[], none, "", .idle, none, [⟨emptyPart, 1⟩], 0⟩ "X" 3 =
      ⟨[], none, "", .idle, none, [⟨emptyPart, 1⟩], 0⟩ :=
  ⟨by decide,
    setQuantity_absent_frame ⟨[], none, "", .idle, none, [⟨emptyPart, 1⟩], 0⟩ "X" 3
      (by decide) (by intro q hq; simp at hq; subst hq; decide)⟩

/-- C9: the stored discount percentage is always the input clamped to
`[0, 100]`: it lies in that interval, in-range inputs are stored unchanged,
`setDiscount(150)` stores 100 and `setDiscount(-10)` stores 0. -/
theorem discount_clamped (s : AppState) (v : Option Rat) :
    0 ≤ (onDiscountChange s v).discountPercentage ∧
    (onDiscountChange s v).discountPercentage ≤ 100 ∧
    (∀ x : Rat, v = some x → 0 ≤ x → x ≤ 100 →
      (onDiscountChange s v).discountPercentage = x) ∧
    (onDiscountChange s (some 150)).discountPercentage = 100 ∧
    (onDiscountChange s (some (-10))).discountPercentage = 0 := by
  refine ⟨?_, ?_, ?_, ?_, ?_⟩
  · exact le_max_left 0 _
  · exact max_le (by norm_num) (min_le_left 100 _)
  · intro x hx h0 h100
    subst hx
    simp only [onDiscountChange, clampDiscountInput, Option.getD_some]
    rw [min_eq_right h100, max_eq_right h0]
  · simp [onDiscountChange, clampDiscountInput]
    norm_num
  · simp [onDiscountChange, clampDiscountInput]

/-- C9 witness: the clamp evaluated on an idle state and input 150. -/
theorem discount_clamped_witness :
    0 ≤ (onDiscountChange ⟨[], none, "", .idle, none, [], 0⟩ (some 150)).discountPercentage ∧
    (onDiscountChange ⟨[], none, "", .idle, none, [], 0⟩ (some 150)).discountPercentage ≤ 100 ∧
    (∀ x : Rat, (some (150 : Rat)) = some x → 0 ≤ x → x ≤ 100 →
      (onDiscountChange ⟨[], none, "", .idle, none, [], 0⟩ (some 150)).discountPercentage = x) ∧
    (onDiscountChange ⟨[], none, "", .idle, none, [], 0⟩ (some 150)).discountPercentage = 100 ∧
    (onDiscountChange ⟨[], none, "", .idle, none, [], 0⟩ (some (-10))).discountPercentage = 0 :=
  discount_clamped ⟨[], none, "", .idle, none, [], 0⟩ (some 150)

/-- C6: every ingestion attempt on a selected file resets the quotation to
empty and the discount to 0, whether it succeeds or fails; on any failure
(parse rejection or size overflow) the catalog is also reset to empty. -/
theorem ingest_resets_quotation (s : AppState)
    (parseResult : Except IngestError (List Part)) :
    (handleFileChange s parseResult).quotationParts = [] ∧
    (handleFileChange s parseResult).discountPercentage = 0 ∧
    (ingestFails parseResult → (handleFileChange s parseResult).parts = []) := by
  cases parseResult with
  | ok parsedData =>
      by_cases hbig : parsedData.length > MAX_PARTS_LIMIT
      · simp [handleFileChange, ingestFails, hbig]
      · simp [handleFileChange, ingestFails, hbig]
  | error e => simp [handleFileChange, ingestFails]

/-- C6 witness: a failing attempt (header-only file) on a state with a
non-empty quotation and discount. -/
theorem ingest_resets_quotation_witness :
    (handleFileChange ⟨[emptyPart], none, "q", .idle, none, [⟨emptyPart, 2⟩], 5⟩
      (.error .emptyOrHeaderOnly)).quotationParts = [] ∧
    (handleFileChange ⟨[emptyPart], none, "q", .idle, none, [⟨emptyPart, 2⟩], 5⟩
      (.error .emptyOrHeaderOnly)).discountPercentage = 0 ∧
    (ingestFails (.error .emptyOrHeaderOnly) →
      (handleFileChange ⟨[emptyPart], none, "q", .idle, none, [⟨emptyPart, 2⟩], 5⟩
        (.error .emptyOrHeaderOnly)).parts = []) :=
  ingest_resets_quotation ⟨[emptyPart], none, "q", .idle, none, [⟨emptyPart, 2⟩], 5⟩
    (.error .emptyOrHeaderOnly)

/-- C4: a parse of exactly 65,001 records fails with `SizeExceeded` and the
record set is discarded (catalog emptied), a parse of exactly 65,000 records
succeeds and is stored, and the size check runs only after a successful
parse: a failed parse surfaces its own error, never `SizeExceeded`. -/
theorem size_limit_boundary (s : AppState) (bigData okData : List Part)
    (e : IngestError)
    (hbig : bigData.length = 65001) (hok : okData.length = 65000) :
    (handleFileChange s (.ok bigData)).uploadStatus = .error ∧
    (handleFileChange s (.ok bigData)).lastError =
      some (.sizeExceeded 65001 MAX_PARTS_LIMIT) ∧
    (handleFileChange s (.ok bigData)).parts = [] ∧
    (handleFileChange s (.ok okData)).uploadStatus = .success ∧
    (handleFileChange s (.ok okData)).parts = okData ∧
    (handleFileChange s (.error e)).lastError = some e := by
  have h1 : bigData.length > MAX_PARTS_LIMIT := by
    rw [hbig]; norm_num [MAX_PARTS_LIMIT]
  have h2 : ¬ (okData.length > MAX_PARTS_LIMIT) := by
    rw [hok]; norm_num [MAX_PARTS_LIMIT]
  refine ⟨?_, ?_, ?_, ?_, ?_, ?_⟩ <;>
    simp [handleFileChange, h1, h2, hbig, hok, MAX_PARTS_LIMIT]

/-- C4 witness: replicated catalogs of exactly 65,001 and 65,000 records. -/
theorem size_limit_boundary_witness :
    (List.replicate 65001 emptyPart).length = 65001 ∧
    (List.replicate 65000 emptyPart).length = 65000 ∧
    (handleFileChange ⟨[], none, "", .idle, none, [], 0⟩
      (.ok (List.replicate 65001 emptyPart))).uploadStatus = .error ∧
    (handleFileChange ⟨[], none, "", .idle, none, [], 0⟩
      (.ok (List.replicate 65001 emptyPart))).lastError =
        some (.sizeExceeded 65001 MAX_PARTS_LIMIT) ∧
    (handleFileChange ⟨[], none, "", .idle, none, [], 0⟩
      (.ok (List.replicate 65001 emptyPart))).parts = [] ∧
    (handleFileChange ⟨[], none, "", .idle, none, [], 0⟩
      (.ok (List.replicate 65000 emptyPart))).uploadStatus = .success ∧
    (handleFileChange ⟨[], none, "", .idle, none, [], 0⟩
      (.ok (List.replicate 65000 emptyPart))).parts = List.replicate 65000 emptyPart ∧
    (handleFileChange ⟨[], none, "", .idle, none, [], 0⟩
      (.error .unsupportedFormat)).lastError = some .unsupportedFormat := by
  have h1 : (List.replicate 65001 emptyPart).length = 65001 :=
    List.length_replicate 65001 emptyPart
  have h2 : (List.replicate 65000 emptyPart).length = 65000 :=
    List.length_replicate 65000 emptyPart
  have h := size_limit_boundary ⟨[], none, "", .idle, none, [], 0⟩
    (List.replicate 65001 emptyPart) (List.replicate 65000 emptyPart)
    .unsupportedFormat h1 h2
  exact ⟨h1, h2, h.1, h.2.1, h.2.2.1, h.2.2.2.1, h.2.2.2.2.1, h.2.2.2.2.2⟩

/-- The JS `reduce` of the subtotal is the sum over the lines. -/
theorem foldl_add_eq_sum (f : QuotationPart → Rat) (l : List QuotationPart) (a : Rat) :
    l.foldl (fun acc q => acc + f q) a = a + (l.map f).sum := by
  induction l generalizing a with
  | nil => simp
  | cons x xs ih =>
      simp only [List.foldl_cons, List.map_cons, List.sum_cons, ih]
      ring

/-- C5: `totals()` is derived exactly as specified: the subtotal is the sum
over the lines of the parsed `mrp` times the quantity (the `mrp` text
stripped to digits, `.` and `-`, unparseable treated as 0), the discount
amount is `subtotal * (discountPct / 100)`, the total is their difference;
and the lines `[{mrp: "₹100.00", qty 2}, {mrp: "₹50", qty 1}]` at discount
10 yield subtotal 250, discount amount 25 and total 225. -/
theorem totals_derivation (parts : List QuotationPart) (discount : Rat) :
    (totals parts discount).subtotal =
      (parts.map (fun q => parseCurrency q.part.mrp * (q.quantity : Rat))).sum ∧
    (totals parts discount).discountAmount =
      (totals parts discount).subtotal * (discount / 100) ∧
    (totals parts discount).total =
      (totals parts discount).subtotal - (totals parts discount).discountAmount ∧
    parseCurrency "₹100.00" = 100 ∧
    parseCurrency "₹50" = 50 ∧
    totals [⟨{ emptyPart with mrp := "₹100.00" }, 2⟩, ⟨{ emptyPart with mrp := "₹50" }, 1⟩] 10
      = ⟨250, 25, 225⟩ := by
  refine ⟨?_, rfl, rfl, ?_, ?_, ?_⟩
  · simpa using
      foldl_add_eq_sum (fun q => parseCurrency q.part.mrp * (q.quantity : Rat)) parts 0
  · simp [parseCurrency, jsParseFloat, stripNonNumeric, digitsToNat]
  · simp [parseCurrency, jsParseFloat, stripNonNumeric, digitsToNat]
  · simp [totals, parseCurrency, jsParseFloat, stripNonNumeric, digitsToNat, Totals.mk.injEq]
    norm_num

/-- C1: exact-match short-circuit.  The fuzzy engine (Fuse.js, external to
the repository) enters as `engine`; per the spec it is case-insensitive and
typo-tolerant, so an exact item-number hit is among its candidates (`hhit`)
and every candidate comes from the catalog (`hsub`).  Then for every catalog
with unique item numbers and every query whose trimmed text equals the
`itemNo` of a catalog record case-insensitively, the search returns the
single-element list holding exactly that record, never a longer list. -/
theorem exact_match_short_circuit (engine : String → List Part)
    (parts : List Part) (searchQuery : String) (prev : Option (List Part)) (p : Part)
    (hmem : p ∈ parts)
    (hne : (trimStr searchQuery == "") = false)
    (hexact : toLowerStr p.itemNo = toLowerStr (trimStr searchQuery))
    (hsub : ∀ r ∈ engine (trimStr searchQuery), r ∈ parts)
    (hhit : p ∈ engine (trimStr searchQuery))
    (huniq : ∀ a ∈ parts, ∀ b ∈ parts, toLowerStr a.itemNo = toLowerStr b.itemNo → a = b) :
    handleSearch (some engine) searchQuery prev = some [p] := by
  cases hfind : (engine (trimStr searchQuery)).find?
      (fun r => toLowerStr r.itemNo == toLowerStr (trimStr searchQuery)) with
  | none =>
      exfalso
      have := List.find?_eq_none.mp hfind p hhit
      simp [hexact] at this
  | some r =>
      have hr : toLowerStr r.itemNo = toLowerStr (trimStr searchQuery) := by
        have := List.find?_some hfind
        simpa using this
      have hrmem : r ∈ parts := hsub r (List.mem_of_find?_eq_some hfind)
      have hrp : r = p := huniq r hrmem p hmem (hr.trans hexact.symm)
      simp [handleSearch, hne, hfind, hrp]

/-- A catalog record with item number `AB-123`, for the search witnesses. -/
def samplePart : Part := { emptyPart with itemNo := "AB-123" }

/-- C1 witness: querying `"AB-123"` against a one-record catalog whose
engine returns that record. -/
theorem exact_match_short_circuit_witness :
    samplePart ∈ [samplePart] ∧
    (trimStr "AB-123" == "") = false ∧
    toLowerStr samplePart.itemNo = toLowerStr (trimStr "AB-123") ∧
    handleSearch (some (fun _ => [samplePart])) "AB-123" none = some [samplePart] :=
  ⟨by decide, by decide, by decide,
    exact_match_short_circuit (fun _ => [samplePart]) [samplePart] "AB-123" none samplePart
      (by decide) (by decide) (by decide)
      (by intro r hr; simpa using hr) (by decide) (by decide)⟩

/-- Writing an empty string into a blank record leaves it blank. -/
theorem setField_empty_blank (k : PartKey) : setField emptyPart k "" = emptyPart := by
  cases k <;> rfl

/-- A fully absent row only ever writes default empty strings. -/
theorem processRowGo_nil_row (hm : List (Option PartKey)) (index : Nat) :
    processRowGo [] hm index emptyPart = emptyPart := by
  induction hm generalizing index with
  | nil => rfl
  | cons pk rest ih =>
      cases pk with
      | none => exact ih _
      | some k => simpa [processRowGo, cellAt, setField_empty_blank] using ih (index + 1)

/-- Columns whose headers were not recognized never touch the record. -/
theorem processRowGo_none_cols (row : List (Option CellValue)) (n index : Nat)
    (part : Part) :
    processRowGo row (List.replicate n none) index part = part := by
  induction n generalizing index with
  | zero => rfl
  | succ m ih => simpa [List.replicate_succ, processRowGo] using ih (index + 1)

/-- C2 (amended): for both supported readers, a file whose normalized
headers cover all eight required canonical fields (in any spelling variant
of the synonym table, in any column order) and that is not already rejected
by an earlier check (an xlsx file has at least two sheet rows; a csv/tsv
file has no reader-reported parse error) ingests successfully into exactly
one record per data row; rows shorter than the header (missing cells)
produce empty-string fields, and columns with unrecognized headers are
ignored. -/
theorem ingestion_one_record_per_row
    (json : List (List (Option CellValue)))
    (fields : List String) (data : List (List String)) (perrors : List String)
    (hlen : 2 ≤ json.length)
    (hmissX : missingOf (headerMapOf (json.headD [])) = [])
    (hperr : perrors = [])
    (hmissC : missingOf ((fields.map normalizeHeader).map HEADER_MAPPING) = []) :
    (∃ recs, parseExcelRows json = .ok recs ∧ recs.length = json.length - 1) ∧
    (∃ recs, parseCsvTsvRows fields data perrors = .ok recs ∧
      recs.length = data.length) ∧
    (∀ hm, processRow [] hm = emptyPart) ∧
    (∀ row n, processRow row (List.replicate n none) = emptyPart) := by
  refine ⟨?_, ?_, ?_, ?_⟩
  · have h2 : ¬ (json.length < 2) := by omega
    refine ⟨(json.drop 1).map (fun row => processRow row (headerMapOf (json.headD []))),
      ?_, by simp⟩
    simp [parseExcelRows, h2]
    simpa using hmissX
  · subst hperr
    refine ⟨data.map (fun row => processCsvRow (fields.map normalizeHeader) row),
      ?_, by simp⟩
    simp [parseCsvTsvRows]
    simpa using hmissC
  · intro hm
    exact processRowGo_nil_row hm 0
  · intro row n
    exact processRowGo_none_cols row n 0 emptyPart

/-- Spreadsheet witness input: all eight required columns in mixed spelling
variants and order, one unrecognized extra column, two data rows. -/
def sampleHeaderRow : List (Option CellValue) :=
  [some (.str "Item No."), some (.str " DESCRIPTION "), some (.str "Item Group"),
   some (.str "MODEL"), some (.str "BHL/HLN Flag"), some (.str "HSN Tax %"),
   some (.str "Sale Rate"), some (.str "MRP"), some (.str "Internal Code")]

/-- Spreadsheet witness input: a short data row with an empty cell. -/
def sampleDataRow : List (Option CellValue) :=
  [some (.str "AB-123"), some (.str "Bucket Pin"), none, some (.num 3)]

/-- Spreadsheet witness input: header row plus one data row. -/
def sampleJson : List (List (Option CellValue)) := [sampleHeaderRow, sampleDataRow]

/-- Delimited-text witness input: the eight required fields, other spelling
variants than the spreadsheet witness. -/
def sampleFields : List String :=
  ["Item No", "Description", "Item Group", "Model", "BHL/HLN FLAG", "HSN Tax",
   "Sale Rate", "MRP"]

/-- Delimited-text witness input: one data row. -/
def sampleCsvData : List (List String) :=
  [["AB-123", "Bucket Pin", "G1", "3CX", "Y", "18", "100", "₹120"]]

/-- C2 counterexample: a header-only xlsx whose single row contains all
eight required columns (no canonical field is missing) is nevertheless
rejected as empty-or-header-only — the `json.length < 2` check in
`parseExcel` runs before any record can be produced — so the unqualified
claim that every supported file with all eight required columns ingests
successfully fails at this input. -/
theorem ingestion_header_only_counterexample :
    missingOf (headerMapOf ([sampleHeaderRow].headD [])) = [] ∧
    parseExcelRows [sampleHeaderRow] = .error .emptyOrHeaderOnly ∧
    parseExcelRows [sampleHeaderRow] ≠ .ok [] := by
  refine ⟨by decide, rfl, ?_⟩
  intro h
  rw [show parseExcelRows [sampleHeaderRow] = .error .emptyOrHeaderOnly from rfl] at h
  exact Except.noConfusion h

/-- C2 witness: the sample spreadsheet and csv both ingest to one record. -/
theorem ingestion_one_record_per_row_witness :
    2 ≤ sampleJson.length ∧
    missingOf (headerMapOf (sampleJson.headD [])) = [] ∧
    missingOf ((sampleFields.map normalizeHeader).map HEADER_MAPPING) = [] ∧
    (∃ recs, parseExcelRows sampleJson = .ok recs ∧
      recs.length = sampleJson.length - 1) ∧
    (∃ recs, parseCsvTsvRows sampleFields sampleCsvData [] = .ok recs ∧
      recs.length = sampleCsvData.length) :=
  ⟨by decide, by decide, by decide,
    (ingestion_one_record_per_row sampleJson sampleFields sampleCsvData []
      (by decide) (by decide) rfl (by decide)).1,
    (ingestion_one_record_per_row sampleJson sampleFields sampleCsvData []
      (by decide) (by decide) rfl (by decide)).2.1⟩

/-- C3 counterexample: a spreadsheet with a single (header-only) row whose
normalized headers leave seven required fields without a source column is
rejected as empty-or-header-only, not with the `MissingColumns` error the
claim requires for every such file. -/
theorem missing_columns_counterexample :
    missingOf (headerMapOf [some (CellValue.str "Model")]) =
      [.itemNo, .itemDescription, .itemGroup, .bhlHlnFlag, .hsnTax, .saleRate, .mrp] ∧
    parseExcelRows [[some (CellValue.str "Model")]] = .error .emptyOrHeaderOnly ∧
    IngestError.emptyOrHeaderOnly ≠
      IngestError.missingColumns
        [.itemNo, .itemDescription, .itemGroup, .bhlHlnFlag, .hsnTax, .saleRate, .mrp] :=
  ⟨by decide, rfl, by decide⟩

/-- C3 (amended): for every input not already rejected by an earlier check
(a spreadsheet with at least two rows; a delimited file with no reader
errors) in which at least one required canonical field has no source column
after header normalization, ingestion fails with `MissingColumns` carrying
exactly the missing canonical field names — a required field is listed iff
it is not among the recognized columns — and no record is produced. -/
theorem missing_columns_rejected
    (json : List (List (Option CellValue)))
    (fields : List String) (data : List (List String))
    (hlen : 2 ≤ json.length)
    (hmissX : missingOf (headerMapOf (json.headD [])) ≠ [])
    (hmissC : missingOf ((fields.map normalizeHeader).map HEADER_MAPPING) ≠ []) :
    parseExcelRows json =
      .error (.missingColumns (missingOf (headerMapOf (json.headD [])))) ∧
    parseCsvTsvRows fields data [] =
      .error (.missingColumns
        (missingOf ((fields.map normalizeHeader).map HEADER_MAPPING))) ∧
    (∀ hm k, k ∈ missingOf hm ↔ k ∈ REQUIRED_HEADERS ∧ k ∉ hm.filterMap id) := by
  refine ⟨?_, ?_, ?_⟩
  · have h2 : ¬ (json.length < 2) := by omega
    have hpos : 0 < (missingOf (headerMapOf (json.headD []))).length :=
      List.length_pos.mpr hmissX
    simp [parseExcelRows, h2, hpos]
    simpa using hmissX
  · have hpos : 0 < (missingOf ((fields.map normalizeHeader).map HEADER_MAPPING)).length :=
      List.length_pos.mpr hmissC
    simp [parseCsvTsvRows, hpos]
    simpa using hmissC
  · intro hm k
    simp [missingOf, List.mem_filter]

/-- Two-row spreadsheet witness input with only a `model` column. -/
def sampleBadJson : List (List (Option CellValue)) :=
  [[some (.str "Model")], [some (.str "3CX")]]

/-- Delimited-text witness input with only `model` and `mrp` columns. -/
def sampleBadFields : List String := ["Model", "MRP"]

/-- C3 witness: both sample files fail with exactly the missing names. -/
theorem missing_columns_rejected_witness :
    2 ≤ sampleBadJson.length ∧
    missingOf (headerMapOf (sampleBadJson.headD [])) ≠ [] ∧
    missingOf ((sampleBadFields.map normalizeHeader).map HEADER_MAPPING) ≠ [] ∧
    parseExcelRows sampleBadJson =
      .error (.missingColumns (missingOf (headerMapOf (sampleBadJson.headD [])))) ∧
    parseCsvTsvRows sampleBadFields [["3CX", "₹120"]] [] =
      .error (.missingColumns
        (missingOf ((sampleBadFields.map normalizeHeader).map HEADER_MAPPING))) :=
  ⟨by decide, by decide, by decide,
    (missing_columns_rejected sampleBadJson sampleBadFields [["3CX", "₹120"]]
      (by decide) (by decide) (by decide)).1,
    (missing_columns_rejected sampleBadJson sampleBadFields [["3CX", "₹120"]]
      (by decide) (by decide) (by decide)).2.1⟩

end JCB
